import Mathlib

/-!
Verification of the tahoma node core (src/nodes/tahoma.ts): the instruction
resolver `generateInstructionsFromPayload`, the completion-polling tracker
`validateStatus` / `continueWhenCompleted`, and the `on('input')` adapter.

The embedding is shallow:
  * JavaScript numbers that can be NaN (results of `parseInt`) are `JSNum`.
  * Promises and timers are replaced by explicit data: the tracker consumes a
    finite list of probe results (each probe either a transport error or a
    `Status | null` value) and reports how many probes it consumed, the total
    delay time elapsed, the observable events, and how the loop ended.
  * The `on('input')` handler is a function from the payload and an
    environment (the results of the external gateway calls) to the list of
    observable events (node status displays, the executed wire command, the
    status probes, the downstream send) plus an outcome.
-/

/-- A JavaScript number as produced by `parseInt(..., 10)` in this source:
either an integer or the not-a-number value `NaN`. -/
inductive JSNum where
  | nan : JSNum
  | int : Int → JSNum
deriving DecidableEq, Repr

/-- JavaScript truthiness on `JSNum`: `NaN` and `0` are falsy. -/
def JSNum.isFalsy : JSNum → Bool
  | .nan => true
  | .int n => n == 0

/-- The JavaScript expression `x || 0` where `x` is a possibly-absent
(`undefined`) number field: `undefined`, `NaN` and `0` all give `0`. -/
def jsOrZero : Option JSNum → JSNum
  | none => JSNum.int 0
  | some v => if v.isFalsy then JSNum.int 0 else v

/-- Model of `parseInt(s, 10)`: skip leading whitespace, read an optional sign, then
the longest run of decimal digits; no digits at all gives `NaN`, and any
trailing non-digit characters are ignored. -/
def parseIntJS (s : String) : JSNum :=
  let cs := s.data.dropWhile (fun c => c.isWhitespace)
  let sd : Bool × List Char :=
    match cs with
    | '-' :: r => (true, r)
    | '+' :: r => (false, r)
    | r => (false, r)
  let ds := sd.2.takeWhile (fun c => c.isDigit)
  if ds.isEmpty then JSNum.nan
  else
    let n : Nat := ds.foldl (fun acc c => acc * 10 + (c.toNat - 48)) 0
    if sd.1 then JSNum.int (-(n : Int)) else JSNum.int n

/-- The incoming control payload (`ITahomaControlPayload`): an action tag,
numeric-as-text fields, and the low-speed flag. -/
structure ITahomaControlPayload where
  action : String
  orientation : String
  position : String
  lowspeed : Bool
  repetitions : String
deriving DecidableEq, Repr

/-- The `TahomaCommands` enum. -/
inductive TahomaCommands where
  | OPEN | CLOSE | ROTATION | STOP | SET_CLOSURE | SET_CLOSURE_AND_ORIENTATION | WINK
deriving DecidableEq, Repr

/-- The string value each `TahomaCommands` enum member carries in the source. -/
def TahomaCommands.wireName : TahomaCommands → String
  | .OPEN => "open"
  | .CLOSE => "close"
  | .ROTATION => "rotation"
  | .STOP => "stop"
  | .SET_CLOSURE => "setClosure"
  | .SET_CLOSURE_AND_ORIENTATION => "setClosureAndOrientation"
  | .WINK => "wink"

/-- The optional expected terminal device state of an instruction; every
field is optional, matching `{ open?; position?; orientation?; repetitions? }`. -/
structure ExpectedState where
  «open» : Option Bool := none
  position : Option JSNum := none
  orientation : Option JSNum := none
  repetitions : Option JSNum := none
deriving DecidableEq, Repr

/-- The human-readable progress/done labels of an instruction. -/
structure Labels where
  done : String
  progress : String
deriving DecidableEq, Repr

/-- The record `ITahomaControlInstructions`: the unit the resolver returns. `parameters`
and `expectedState` are optional, exactly as in the source interface. -/
structure ITahomaControlInstructions where
  command : TahomaCommands
  parameters : Option (List JSNum) := none
  expectedState : Option ExpectedState := none
  labels : Labels
deriving DecidableEq, Repr

/-- The resolver `generateInstructionsFromPayload`: the pure resolver, a switch over
`payload.action`; unrecognized actions give `null` (here `none`). Template
strings are string concatenation of the raw text fields. -/
def generateInstructionsFromPayload (payload : ITahomaControlPayload) :
    Option ITahomaControlInstructions :=
  match payload.action with
  | "open" =>
      some { command := .OPEN,
             expectedState := some { «open» := some true, position := some (.int 0) },
             labels := { done := "Open", progress := "Opening..." } }
  | "close" =>
      some { command := .CLOSE,
             expectedState := some { «open» := some false, position := some (.int 100) },
             labels := { done := "Closed", progress := "Closing..." } }
  | "customPosition" =>
      some { command := .SET_CLOSURE,
             expectedState := some { «open» := some true,
                                     position := some (parseIntJS payload.position) },
             labels := { done := "Set to " ++ payload.position,
                         progress := "Setting to " ++ payload.position },
             parameters := some [parseIntJS payload.position] }
  | "customRotation" =>
      some { command := .ROTATION,
             expectedState := some { orientation := some (parseIntJS payload.orientation) },
             labels := { done := "Rotated to " ++ payload.orientation,
                         progress := "Rotating to " ++ payload.orientation ++ "..." },
             parameters := some [parseIntJS payload.orientation] }
  | "customOrientation" =>
      some { command := .ROTATION,
             expectedState := some { orientation := some (parseIntJS payload.orientation) },
             labels := { done := "Rotated to " ++ payload.orientation,
                         progress := "Rotating to " ++ payload.orientation ++ "..." },
             parameters := some [parseIntJS payload.orientation] }
  | "customClosureAndOrientation" =>
      some { command := .SET_CLOSURE_AND_ORIENTATION,
             expectedState := some { position := some (parseIntJS payload.position),
                                     orientation := some (parseIntJS payload.orientation) },
             labels := { done := "Set to position:" ++ payload.position ++ ", orientation:"
                                   ++ payload.orientation,
                         progress := "Moving to position:" ++ payload.position ++ ", orientation:"
                                   ++ payload.orientation ++ "..." },
             parameters := some [parseIntJS payload.position, parseIntJS payload.orientation] }
  | "stop" =>
      some { command := .STOP,
             labels := { done := "Stopped", progress := "Stopping..." } }
  | "wink" =>
      some { command := .WINK,
             expectedState := some { repetitions := some (parseIntJS payload.repetitions) },
             labels := { done := "Stopped",
                         progress := "Winking " ++ payload.repetitions ++ " time(s)" },
             parameters := some [parseIntJS payload.repetitions] }
  | _ => none

/-- The actions the resolver's switch recognizes. -/
def recognizedActions : List String :=
  ["open", "close", "customPosition", "customRotation", "customOrientation",
   "customClosureAndOrientation", "stop", "wink"]

/-- An opaque gateway status value: its shape does not matter to the core,
only whether a probe returned one at all (versus `null`). -/
structure Status where
  shape : String
deriving DecidableEq, Repr

/-- The fixed polling delay, 2500 ms: the tracker waits this long before
every status probe. -/
def STATE_VALIDATOR_POLLING_DELAY : Nat := 2500

/-- The wire-level command handed to the gateway client (`ICommand`). -/
structure ICommand where
  name : String
  parameters : List JSNum
deriving DecidableEq, Repr

/-- An observable event of one invocation: a node status display (the shape
is always a dot, so it is omitted), the wire command handed to
`somfyApiClient.execute`, a call of `getStatusForExecutionId`, or the
forwarding of the original message downstream via `this.send(msg)`. -/
inductive Fill where
  | yellow | grey | green
deriving DecidableEq, Repr

inductive Event where
  | nodeStatus (fill : Fill) (text : String)
  | executeCall (cmd : ICommand)
  | probeCall (execId : String)
  | sendMsg
deriving DecidableEq, Repr

/-- Whether an event is a terminal node status: the green `done` display or
the grey `Unknown` display. -/
def Event.isTerminalStatus : Event → Bool
  | .nodeStatus .green _ => true
  | .nodeStatus .grey _ => true
  | _ => false

/-- Whether an event is the yellow progress display. -/
def Event.isProgressStatus : Event → Bool
  | .nodeStatus .yellow _ => true
  | _ => false

/-- How an invocation (or polling loop) ended within the modelled finite
probe history:
  * `noop`: the resolver returned `null` and the handler returned at once;
  * `crashed`: reading `.position` of an `undefined` `expectedState` threw;
  * `aborted`: a gateway call failed, so the promise chain never settles
    (the rejection is unhandled and nothing further runs);
  * `pending`: the finite probe history was exhausted while the loop was
    still polling (the real loop would keep polling forever);
  * `resolved`: the terminal status was displayed and the message sent. -/
inductive Outcome where
  | noop | crashed | aborted | pending | resolved
deriving DecidableEq, Repr

/-- Model of `validateStatus` on one probe result: after the fixed delay the probe
runs once and the promise resolves with `status === null`; a transport error
in the probe leaves the promise unsettled (modelled as `error`). -/
def validateStatus (probeResult : Except Unit (Option Status)) : Except Unit Bool :=
  probeResult.map Option.isNone

/-- The result of running `continueWhenCompleted` against a finite list of
probe results: the probe events, how the loop ended, the total delay time
elapsed (one fixed delay before each probe actually made), and the number of
probes made. -/
structure TrackResult where
  events : List Event
  outcome : Outcome
  elapsedMs : Nat
  probes : Nat
deriving DecidableEq, Repr

/-- The tracker `continueWhenCompleted`: run `validateStatus` (fixed delay, then one
probe); if the probe reported `null` the tracking promise resolves,
otherwise recurse unconditionally. Each list element is the result the
gateway would give to the next probe; an empty remainder means the loop is
still polling. -/
def continueWhenCompleted (execId : String) :
    List (Except Unit (Option Status)) → TrackResult
  | [] => { events := [], outcome := .pending, elapsedMs := 0, probes := 0 }
  | r :: rest =>
    match validateStatus r with
    | .error _ =>
        { events := [.probeCall execId], outcome := .aborted,
          elapsedMs := STATE_VALIDATOR_POLLING_DELAY, probes := 1 }
    | .ok true =>
        { events := [.probeCall execId], outcome := .resolved,
          elapsedMs := STATE_VALIDATOR_POLLING_DELAY, probes := 1 }
    | .ok false =>
        let t := continueWhenCompleted execId rest
        { events := .probeCall execId :: t.events, outcome := t.outcome,
          elapsedMs := STATE_VALIDATOR_POLLING_DELAY + t.elapsedMs,
          probes := t.probes + 1 }

/-- The environment of one invocation: the result of the gateway client's
`execute` call (an execution id, or a transport error) and the results the
gateway would give to successive status probes. -/
structure Env where
  executeResult : Except Unit String
  probeResults : List (Except Unit (Option Status))
deriving Repr

/-- The `on('input')` handler: resolve the payload, return at once on
`null`; build the wire command (`parameters || []`), apply the low-speed
override (reading `instructions.expectedState.position` — a TypeError if
`expectedState` is `undefined`, modelled as `crashed`); display the yellow
progress status; call `execute`; on success either short-circuit to the grey
`Unknown` status and send when there is no `expectedState`, or poll until
completion and then display the green done status and send. -/
def onInput (payload : ITahomaControlPayload) (env : Env) : List Event × Outcome :=
  match generateInstructionsFromPayload payload with
  | none => ([], .noop)
  | some instructions =>
    let base : ICommand :=
      { name := instructions.command.wireName,
        parameters := instructions.parameters.getD [] }
    let afterOverride : Option ICommand :=
      if payload.lowspeed && !(instructions.command.wireName == "stop") then
        match instructions.expectedState with
        | none => none
        | some st => some { name := "position_low_speed",
                            parameters := [jsOrZero st.position] }
      else some base
    match afterOverride with
    | none => ([], .crashed)
    | some command =>
      let pre : List Event :=
        [.nodeStatus .yellow instructions.labels.progress, .executeCall command]
      match env.executeResult with
      | .error _ => (pre, .aborted)
      | .ok execId =>
        match instructions.expectedState with
        | none => (pre ++ [.nodeStatus .grey "Unknown", .sendMsg], .resolved)
        | some _ =>
          let t := continueWhenCompleted execId env.probeResults
          match t.outcome with
          | .resolved =>
              (pre ++ t.events
                   ++ [.nodeStatus .green instructions.labels.done, .sendMsg],
               .resolved)
          | o => (pre ++ t.events, o)

lemma wireName_eq_stop_iff (c : TahomaCommands) : c.wireName = "stop" ↔ c = .STOP := by
  cases c <;> decide

lemma generate_expectedState_isSome {p : ITahomaControlPayload}
    {instr : ITahomaControlInstructions}
    (hg : generateInstructionsFromPayload p = some instr)
    (hs : instr.command ≠ TahomaCommands.STOP) :
    ∃ st, instr.expectedState = some st := by
  unfold generateInstructionsFromPayload at hg
  split at hg <;>
    first
      | (cases hg; exact ⟨_, rfl⟩)
      | (cases hg; exact absurd rfl hs)
      | exact Option.noConfusion hg

lemma generate_action_mem {p : ITahomaControlPayload}
    {instr : ITahomaControlInstructions}
    (hg : generateInstructionsFromPayload p = some instr) :
    p.action ∈ recognizedActions := by
  unfold generateInstructionsFromPayload at hg
  split at hg <;> simp_all [recognizedActions]

lemma cwc_nil (eid : String) :
    continueWhenCompleted eid [] =
      { events := [], outcome := .pending, elapsedMs := 0, probes := 0 } := rfl

lemma cwc_cons_error (eid : String) (u : Unit) (rest : List (Except Unit (Option Status))) :
    continueWhenCompleted eid (.error u :: rest) =
      { events := [.probeCall eid], outcome := .aborted,
        elapsedMs := STATE_VALIDATOR_POLLING_DELAY, probes := 1 } := rfl

lemma cwc_cons_none (eid : String) (rest : List (Except Unit (Option Status))) :
    continueWhenCompleted eid (.ok none :: rest) =
      { events := [.probeCall eid], outcome := .resolved,
        elapsedMs := STATE_VALIDATOR_POLLING_DELAY, probes := 1 } := rfl

lemma cwc_cons_some (eid : String) (t : Status) (rest : List (Except Unit (Option Status))) :
    continueWhenCompleted eid (.ok (some t) :: rest) =
      { events := .probeCall eid :: (continueWhenCompleted eid rest).events,
        outcome := (continueWhenCompleted eid rest).outcome,
        elapsedMs := STATE_VALIDATOR_POLLING_DELAY + (continueWhenCompleted eid rest).elapsedMs,
        probes := (continueWhenCompleted eid rest).probes + 1 } := rfl

lemma cwc_append_nonabsent (eid : String)
    (pre rest : List (Except Unit (Option Status)))
    (h : ∀ x ∈ pre, ∃ t, x = Except.ok (some t)) :
    continueWhenCompleted eid (pre ++ rest) =
      { events := List.replicate pre.length (Event.probeCall eid)
                    ++ (continueWhenCompleted eid rest).events,
        outcome := (continueWhenCompleted eid rest).outcome,
        elapsedMs := pre.length * STATE_VALIDATOR_POLLING_DELAY
                       + (continueWhenCompleted eid rest).elapsedMs,
        probes := (continueWhenCompleted eid rest).probes + pre.length } := by
  induction pre with
  | nil => simp
  | cons x xs ih =>
    obtain ⟨t, rfl⟩ := h x (List.mem_cons_self x xs)
    have hxs := ih (fun y hy => h y (List.mem_cons_of_mem _ hy))
    rw [List.cons_append, cwc_cons_some, hxs]
    simp [List.replicate_succ, Nat.succ_mul]
    omega

lemma cwc_events_are_probes (eid : String)
    (ps : List (Except Unit (Option Status))) :
    ∀ x ∈ (continueWhenCompleted eid ps).events, x = Event.probeCall eid := by
  induction ps with
  | nil => intro x hx; simp [cwc_nil] at hx
  | cons r rest ih =>
    intro x hx
    rcases r with u | os
    · rw [cwc_cons_error] at hx; simpa using hx
    · cases os with
      | none => rw [cwc_cons_none] at hx; simpa using hx
      | some t =>
        rw [cwc_cons_some] at hx
        rcases List.mem_cons.mp hx with rfl | hmem
        · rfl
        · exact ih x hmem

lemma onInput_cases (p : ITahomaControlPayload) (env : Env)
    (instr : ITahomaControlInstructions)
    (hg : generateInstructionsFromPayload p = some instr) :
    ∃ cmd : ICommand,
      (((p.lowspeed && !(instr.command.wireName == "stop")) = false ∧
          cmd = ⟨instr.command.wireName, instr.parameters.getD []⟩) ∨
       ((p.lowspeed && !(instr.command.wireName == "stop")) = true ∧
          ∃ st, instr.expectedState = some st ∧
            cmd = ⟨"position_low_speed", [jsOrZero st.position]⟩)) ∧
      ((env.executeResult = Except.error () ∧
          onInput p env =
            ([.nodeStatus .yellow instr.labels.progress, .executeCall cmd], .aborted)) ∨
       (∃ eid, env.executeResult = Except.ok eid ∧
          ((instr.expectedState = none ∧
              onInput p env =
                ([.nodeStatus .yellow instr.labels.progress, .executeCall cmd,
                  .nodeStatus .grey "Unknown", .sendMsg], .resolved)) ∨
           (∃ st, instr.expectedState = some st ∧
              (((continueWhenCompleted eid env.probeResults).outcome = .resolved ∧
                  onInput p env =
                    ([.nodeStatus .yellow instr.labels.progress, .executeCall cmd]
                       ++ (continueWhenCompleted eid env.probeResults).events
                       ++ [.nodeStatus .green instr.labels.done, .sendMsg], .resolved)) ∨
               ((continueWhenCompleted eid env.probeResults).outcome ≠ .resolved ∧
                  onInput p env =
                    ([.nodeStatus .yellow instr.labels.progress, .executeCall cmd]
                       ++ (continueWhenCompleted eid env.probeResults).events,
                     (continueWhenCompleted eid env.probeResults).outcome))))))) := by
  by_cases hguard : (p.lowspeed && !(instr.command.wireName == "stop")) = true
  · have hne : instr.command ≠ TahomaCommands.STOP := by
      intro h
      rw [h] at hguard
      simp [TahomaCommands.wireName] at hguard
    obtain ⟨st, hst⟩ := generate_expectedState_isSome hg hne
    refine ⟨⟨"position_low_speed", [jsOrZero st.position]⟩,
      Or.inr ⟨hguard, st, hst, rfl⟩, ?_⟩
    rcases hexec : env.executeResult with u | eid
    · cases u
      refine Or.inl ⟨rfl, ?_⟩
      simp [onInput, hg, hguard, hst, hexec]
    · refine Or.inr ⟨eid, rfl, Or.inr ⟨st, hst, ?_⟩⟩
      rcases htr : (continueWhenCompleted eid env.probeResults).outcome with _ | _ | _ | _ | _
      · simp [onInput, hg, hguard, hst, hexec, htr]
      · simp [onInput, hg, hguard, hst, hexec, htr]
      · simp [onInput, hg, hguard, hst, hexec, htr]
      · simp [onInput, hg, hguard, hst, hexec, htr]
      · exact Or.inl ⟨rfl, by simp [onInput, hg, hguard, hst, hexec, htr]⟩
  · rw [Bool.not_eq_true] at hguard
    refine ⟨⟨instr.command.wireName, instr.parameters.getD []⟩,
      Or.inl ⟨hguard, rfl⟩, ?_⟩
    rcases hexec : env.executeResult with u | eid
    · cases u
      refine Or.inl ⟨rfl, ?_⟩
      simp [onInput, hg, hguard, hexec]
    · refine Or.inr ⟨eid, rfl, ?_⟩
      rcases hst : instr.expectedState with _ | st
      · refine Or.inl ⟨rfl, ?_⟩
        simp [onInput, hg, hguard, hst, hexec]
      · refine Or.inr ⟨st, rfl, ?_⟩
        rcases htr : (continueWhenCompleted eid env.probeResults).outcome with _ | _ | _ | _ | _
        · simp [onInput, hg, hguard, hst, hexec, htr]
        · simp [onInput, hg, hguard, hst, hexec, htr]
        · simp [onInput, hg, hguard, hst, hexec, htr]
        · simp [onInput, hg, hguard, hst, hexec, htr]
        · exact Or.inl ⟨rfl, by simp [onInput, hg, hguard, hst, hexec, htr]⟩

lemma wireName_ne_low (c : TahomaCommands) : c.wireName ≠ "position_low_speed" := by
  cases c <;> decide

lemma cwc_outcome_cases (eid : String) (ps : List (Except Unit (Option Status))) :
    (continueWhenCompleted eid ps).outcome = .pending ∨
    (continueWhenCompleted eid ps).outcome = .aborted ∨
    (continueWhenCompleted eid ps).outcome = .resolved := by
  induction ps with
  | nil => exact Or.inl rfl
  | cons r rest ih =>
    rcases r with u | os
    · exact Or.inr (Or.inl (by rw [cwc_cons_error]))
    · cases os with
      | none => exact Or.inr (Or.inr (by rw [cwc_cons_none]))
      | some t => simp only [cwc_cons_some]; exact ih

lemma append_cons_eq_append_singleton {α : Type} (x : α) (A : List α) :
    ∀ l r : List α, l ++ x :: r = A ++ [x] → x ∉ A → l = A ∧ r = [] := by
  induction A with
  | nil =>
    intro l r h _
    cases l with
    | nil =>
      rw [List.nil_append, List.nil_append] at h
      injection h with h1 h2
      exact ⟨rfl, h2⟩
    | cons a l' =>
      rw [List.cons_append, List.nil_append] at h
      injection h with h1 h2
      exact absurd h2 (by simp)
  | cons a A' ih =>
    intro l r h hx
    cases l with
    | nil =>
      rw [List.nil_append, List.cons_append] at h
      injection h with h1 h2
      exact absurd (h1 ▸ List.mem_cons_self a A') hx
    | cons b l' =>
      rw [List.cons_append, List.cons_append] at h
      injection h with h1 h2
      subst h1
      obtain ⟨hl, hr⟩ := ih l' r h2 (fun hm => hx (List.mem_cons_of_mem _ hm))
      exact ⟨by rw [hl], hr⟩

lemma isTerminal_yellow (s : String) :
    (Event.nodeStatus Fill.yellow s).isTerminalStatus = false := rfl

lemma isTerminal_green (s : String) :
    (Event.nodeStatus Fill.green s).isTerminalStatus = true := rfl

lemma isTerminal_grey (s : String) :
    (Event.nodeStatus Fill.grey s).isTerminalStatus = true := rfl

lemma isTerminal_exec (c : ICommand) : (Event.executeCall c).isTerminalStatus = false := rfl

lemma isTerminal_send : (Event.sendMsg).isTerminalStatus = false := rfl

lemma isTerminal_probe (s : String) : (Event.probeCall s).isTerminalStatus = false := rfl

/-- C2: the resolver conforms to the mapping table: action `open` yields
command `OPEN` with expected state `{open: true, position: 0}` and labels
progress `Opening...` / done `Open`; action `customPosition` with position
text `42` yields command `SET_CLOSURE` with parameters `[42]`, expected
state `{open: true, position: 42}`, and labels progress `Setting to 42` /
done `Set to 42`. -/
theorem C2_resolver_mapping (p q : ITahomaControlPayload)
    (hp : p.action = "open")
    (hq : q.action = "customPosition") (hq2 : q.position = "42") :
    generateInstructionsFromPayload p =
      some { command := .OPEN,
             expectedState := some { «open» := some true, position := some (.int 0) },
             labels := { done := "Open", progress := "Opening..." } } ∧
    generateInstructionsFromPayload q =
      some { command := .SET_CLOSURE,
             parameters := some [.int 42],
             expectedState := some { «open» := some true, position := some (.int 42) },
             labels := { done := "Set to 42", progress := "Setting to 42" } } := by
  constructor
  · simp [generateInstructionsFromPayload, hp]
  · simp [generateInstructionsFromPayload, hq, hq2]
    decide

theorem C2_witness :
    generateInstructionsFromPayload ⟨"open", "", "", false, ""⟩ =
      some { command := .OPEN,
             expectedState := some { «open» := some true, position := some (.int 0) },
             labels := { done := "Open", progress := "Opening..." } } ∧
    generateInstructionsFromPayload ⟨"customPosition", "", "42", false, ""⟩ =
      some { command := .SET_CLOSURE,
             parameters := some [.int 42],
             expectedState := some { «open» := some true, position := some (.int 42) },
             labels := { done := "Set to 42", progress := "Setting to 42" } } :=
  C2_resolver_mapping ⟨"open", "", "", false, ""⟩ ⟨"customPosition", "", "42", false, ""⟩
    rfl rfl rfl

/-- C7: for every payload whose action is not in the resolver's table, the
resolver returns `null`, and the handler performs no operation at all: no
status change, no gateway call, no downstream forward (empty event list,
`noop` outcome). -/
theorem C7_unrecognized_noop (p : ITahomaControlPayload) (env : Env)
    (h : p.action ∉ recognizedActions) :
    generateInstructionsFromPayload p = none ∧ onInput p env = ([], .noop) := by
  have hg : generateInstructionsFromPayload p = none := by
    unfold generateInstructionsFromPayload
    split <;> simp_all [recognizedActions]
  exact ⟨hg, by simp [onInput, hg]⟩

theorem C7_witness :
    generateInstructionsFromPayload ⟨"bogus", "", "", false, ""⟩ = none ∧
    onInput ⟨"bogus", "", "", false, ""⟩ ⟨.ok "e1", []⟩ = ([], .noop) :=
  C7_unrecognized_noop ⟨"bogus", "", "", false, ""⟩ ⟨.ok "e1", []⟩ (by decide)

/-- C8: for every payload with a recognized action, the resolver never
rejects the payload (it always returns an instruction), and a malformed
numeric text field — one whose base-10 parse is `NaN` — propagates into the
returned `parameters` and `expectedState` unchanged. This covers every
numeric-parsing arm of the switch: `customPosition` (position),
`customRotation` and `customOrientation` (orientation),
`customClosureAndOrientation` (position and orientation, each independently
of the other field), and `wink` (repetitions). -/
theorem C8_malformed_numeric :
    (∀ p : ITahomaControlPayload, p.action ∈ recognizedActions →
       (generateInstructionsFromPayload p).isSome = true) ∧
    (∀ p : ITahomaControlPayload, p.action = "customPosition" →
       parseIntJS p.position = .nan →
       ∃ i, generateInstructionsFromPayload p = some i ∧
         i.parameters = some [.nan] ∧
         i.expectedState.map (·.position) = some (some .nan)) ∧
    (∀ p : ITahomaControlPayload,
       p.action = "customRotation" ∨ p.action = "customOrientation" →
       parseIntJS p.orientation = .nan →
       ∃ i, generateInstructionsFromPayload p = some i ∧
         i.parameters = some [.nan] ∧
         i.expectedState.map (·.orientation) = some (some .nan)) ∧
    (∀ p : ITahomaControlPayload, p.action = "customClosureAndOrientation" →
       parseIntJS p.position = .nan →
       ∃ i, generateInstructionsFromPayload p = some i ∧
         i.parameters = some [.nan, parseIntJS p.orientation] ∧
         i.expectedState.map (·.position) = some (some .nan)) ∧
    (∀ p : ITahomaControlPayload, p.action = "customClosureAndOrientation" →
       parseIntJS p.orientation = .nan →
       ∃ i, generateInstructionsFromPayload p = some i ∧
         i.parameters = some [parseIntJS p.position, .nan] ∧
         i.expectedState.map (·.orientation) = some (some .nan)) ∧
    (∀ p : ITahomaControlPayload, p.action = "wink" →
       parseIntJS p.repetitions = .nan →
       ∃ i, generateInstructionsFromPayload p = some i ∧
         i.parameters = some [.nan] ∧
         i.expectedState.map (·.repetitions) = some (some .nan)) := by
  refine ⟨?_, ?_, ?_, ?_, ?_, ?_⟩
  · intro p h
    unfold generateInstructionsFromPayload
    split <;> simp_all [recognizedActions]
  · intro p hp hnan
    refine ⟨{ command := .SET_CLOSURE,
              parameters := some [parseIntJS p.position],
              expectedState := some { «open» := some true,
                                      position := some (parseIntJS p.position) },
              labels := { done := "Set to " ++ p.position,
                          progress := "Setting to " ++ p.position } }, ?_, ?_, ?_⟩
    · simp [generateInstructionsFromPayload, hp]
    · simp [hnan]
    · simp [hnan]
  · intro p hact hnan
    refine ⟨{ command := .ROTATION,
              parameters := some [parseIntJS p.orientation],
              expectedState := some { orientation := some (parseIntJS p.orientation) },
              labels := { done := "Rotated to " ++ p.orientation,
                          progress := "Rotating to " ++ p.orientation ++ "..." } }, ?_, ?_, ?_⟩
    · rcases hact with hp | hp <;> simp [generateInstructionsFromPayload, hp]
    · simp [hnan]
    · simp [hnan]
  · intro p hp hnan
    refine ⟨{ command := .SET_CLOSURE_AND_ORIENTATION,
              parameters := some [parseIntJS p.position, parseIntJS p.orientation],
              expectedState := some { position := some (parseIntJS p.position),
                                      orientation := some (parseIntJS p.orientation) },
              labels := { done := "Set to position:" ++ p.position ++ ", orientation:"
                                    ++ p.orientation,
                          progress := "Moving to position:" ++ p.position ++ ", orientation:"
                                    ++ p.orientation ++ "..." } }, ?_, ?_, ?_⟩
    · simp [generateInstructionsFromPayload, hp]
    · simp [hnan]
    · simp [hnan]
  · intro p hp hnan
    refine ⟨{ command := .SET_CLOSURE_AND_ORIENTATION,
              parameters := some [parseIntJS p.position, parseIntJS p.orientation],
              expectedState := some { position := some (parseIntJS p.position),
                                      orientation := some (parseIntJS p.orientation) },
              labels := { done := "Set to position:" ++ p.position ++ ", orientation:"
                                    ++ p.orientation,
                          progress := "Moving to position:" ++ p.position ++ ", orientation:"
                                    ++ p.orientation ++ "..." } }, ?_, ?_, ?_⟩
    · simp [generateInstructionsFromPayload, hp]
    · simp [hnan]
    · simp [hnan]
  · intro p hp hnan
    refine ⟨{ command := .WINK,
              parameters := some [parseIntJS p.repetitions],
              expectedState := some { repetitions := some (parseIntJS p.repetitions) },
              labels := { done := "Stopped",
                          progress := "Winking " ++ p.repetitions ++ " time(s)" } }, ?_, ?_, ?_⟩
    · simp [generateInstructionsFromPayload, hp]
    · simp [hnan]
    · simp [hnan]

theorem C8_witness :
    (generateInstructionsFromPayload ⟨"open", "", "", false, ""⟩).isSome = true ∧
    (∃ i, generateInstructionsFromPayload ⟨"customPosition", "", "abc", false, ""⟩ = some i ∧
       i.parameters = some [.nan] ∧
       i.expectedState.map (·.position) = some (some .nan)) ∧
    (∃ i, generateInstructionsFromPayload ⟨"customOrientation", "abc", "", false, ""⟩ = some i ∧
       i.parameters = some [.nan] ∧
       i.expectedState.map (·.orientation) = some (some .nan)) ∧
    (∃ i, generateInstructionsFromPayload
        ⟨"customClosureAndOrientation", "abc", "abc", false, ""⟩ = some i ∧
       i.parameters = some [.nan, .nan] ∧
       i.expectedState.map (·.position) = some (some .nan)) ∧
    (∃ i, generateInstructionsFromPayload
        ⟨"customClosureAndOrientation", "abc", "abc", false, ""⟩ = some i ∧
       i.parameters = some [.nan, .nan] ∧
       i.expectedState.map (·.orientation) = some (some .nan)) ∧
    (∃ i, generateInstructionsFromPayload ⟨"wink", "", "", false, "abc"⟩ = some i ∧
       i.parameters = some [.nan] ∧
       i.expectedState.map (·.repetitions) = some (some .nan)) :=
  ⟨C8_malformed_numeric.1 ⟨"open", "", "", false, ""⟩ (by decide),
   C8_malformed_numeric.2.1 ⟨"customPosition", "", "abc", false, ""⟩ rfl (by decide),
   C8_malformed_numeric.2.2.1 ⟨"customOrientation", "abc", "", false, ""⟩ (Or.inr rfl)
     (by decide),
   C8_malformed_numeric.2.2.2.1 ⟨"customClosureAndOrientation", "abc", "abc", false, ""⟩ rfl
     (by decide),
   C8_malformed_numeric.2.2.2.2.1 ⟨"customClosureAndOrientation", "abc", "abc", false, ""⟩ rfl
     (by decide),
   C8_malformed_numeric.2.2.2.2.2 ⟨"wink", "", "", false, "abc"⟩ rfl (by decide)⟩

/-- C10: for a payload with action `wink` and repetitions text `r`, the
resolver returns command `WINK` with parameters `[parseInt(r)]`, expected
state `{repetitions: parseInt(r)}`, progress label `Winking r time(s)` and
done label `Stopped`; that done label is the very string the `stop` action
uses as its done label, not a wink-specific one. -/
theorem C10_wink_labels (p q : ITahomaControlPayload)
    (hp : p.action = "wink") (hq : q.action = "stop") :
    generateInstructionsFromPayload p =
      some { command := .WINK,
             parameters := some [parseIntJS p.repetitions],
             expectedState := some { repetitions := some (parseIntJS p.repetitions) },
             labels := { done := "Stopped",
                         progress := "Winking " ++ p.repetitions ++ " time(s)" } } ∧
    (generateInstructionsFromPayload p).map (·.labels.done) =
      (generateInstructionsFromPayload q).map (·.labels.done) := by
  constructor
  · simp [generateInstructionsFromPayload, hp]
  · simp [generateInstructionsFromPayload, hp, hq]

theorem C10_witness :
    generateInstructionsFromPayload ⟨"wink", "", "", false, "3"⟩ =
      some { command := .WINK,
             parameters := some [parseIntJS "3"],
             expectedState := some { repetitions := some (parseIntJS "3") },
             labels := { done := "Stopped",
                         progress := "Winking " ++ "3" ++ " time(s)" } } ∧
    (generateInstructionsFromPayload ⟨"wink", "", "", false, "3"⟩).map (·.labels.done) =
      (generateInstructionsFromPayload ⟨"stop", "", "", false, ""⟩).map (·.labels.done) :=
  C10_wink_labels ⟨"wink", "", "", false, "3"⟩ ⟨"stop", "", "", false, ""⟩ rfl rfl

/-- C1: the completion tracker waits the fixed 2500 ms delay before every
probe, resolves exactly when a probe reports the absence value (`null`),
and otherwise recurses unconditionally with no retry bound and no timeout:
(1) for a probe sequence returning non-absence twice then absence it
resolves only after the third probe, with 3 × 2500 ms ≥ 2 full delay
intervals elapsed; (2) for any number of non-absence probes followed by an
absence, it makes exactly that many probes plus one and resolves, each
probe preceded by one full delay; (3) while every probe keeps returning
non-absence the loop is still polling (never resolved, never given up). -/
theorem C1_completion_tracker (eid : String) (s1 s2 : Status) :
    (continueWhenCompleted eid [.ok (some s1), .ok (some s2), .ok none] =
       { events := [.probeCall eid, .probeCall eid, .probeCall eid],
         outcome := .resolved,
         elapsedMs := 3 * STATE_VALIDATOR_POLLING_DELAY, probes := 3 } ∧
     2 * STATE_VALIDATOR_POLLING_DELAY ≤ 3 * STATE_VALIDATOR_POLLING_DELAY) ∧
    (∀ pre : List (Except Unit (Option Status)),
       (∀ x ∈ pre, ∃ t, x = Except.ok (some t)) →
       continueWhenCompleted eid (pre ++ [.ok none]) =
         { events := List.replicate (pre.length + 1) (Event.probeCall eid),
           outcome := .resolved,
           elapsedMs := (pre.length + 1) * STATE_VALIDATOR_POLLING_DELAY,
           probes := pre.length + 1 }) ∧
    (∀ ps : List (Except Unit (Option Status)),
       (∀ x ∈ ps, ∃ t, x = Except.ok (some t)) →
       (continueWhenCompleted eid ps).outcome = .pending) := by
  refine ⟨⟨?_, by omega⟩, ?_, ?_⟩
  · rw [cwc_cons_some, cwc_cons_some, cwc_cons_none]
    simp [STATE_VALIDATOR_POLLING_DELAY]
  · intro pre h
    rw [cwc_append_nonabsent eid pre [.ok none] h, cwc_cons_none]
    simp only [TrackResult.mk.injEq]
    refine ⟨?_, trivial, ?_, ?_⟩
    · rw [List.replicate_succ']
    · ring
    · omega
  · intro ps h
    have hps := cwc_append_nonabsent eid ps [] h
    rw [List.append_nil] at hps
    rw [hps]
    rfl

theorem C1_witness :
    continueWhenCompleted "exec-1"
        ([Except.ok (some ⟨"s"⟩), Except.ok (some ⟨"s"⟩)] ++ [Except.ok none]) =
      { events := List.replicate 3 (Event.probeCall "exec-1"),
        outcome := .resolved,
        elapsedMs := 3 * STATE_VALIDATOR_POLLING_DELAY, probes := 3 } ∧
    (continueWhenCompleted "exec-1" [Except.ok (some ⟨"s"⟩), Except.ok (some ⟨"s"⟩)]).outcome
      = .pending :=
  ⟨(C1_completion_tracker "exec-1" ⟨"s"⟩ ⟨"s"⟩).2.1
      [Except.ok (some ⟨"s"⟩), Except.ok (some ⟨"s"⟩)]
      (by intro x hx
          rcases List.mem_cons.mp hx with rfl | hx
          · exact ⟨⟨"s"⟩, rfl⟩
          · rcases List.mem_cons.mp hx with rfl | hx
            · exact ⟨⟨"s"⟩, rfl⟩
            · simp at hx),
   (C1_completion_tracker "exec-1" ⟨"s"⟩ ⟨"s"⟩).2.2
      [Except.ok (some ⟨"s"⟩), Except.ok (some ⟨"s"⟩)]
      (by intro x hx
          rcases List.mem_cons.mp hx with rfl | hx
          · exact ⟨⟨"s"⟩, rfl⟩
          · rcases List.mem_cons.mp hx with rfl | hx
            · exact ⟨⟨"s"⟩, rfl⟩
            · simp at hx)⟩

/-- C3: for action `stop` the resolver returns command `STOP` with labels
progress `Stopping...` / done `Stopped` and no `expectedState`; hence the
handler never invokes the status probe for a stop invocation and, as soon
as the command is accepted, displays the grey `Unknown` terminal status and
forwards the message, with no polling cycle. -/
theorem C3_stop_fire_and_forget (p : ITahomaControlPayload) (env : Env)
    (hp : p.action = "stop") :
    generateInstructionsFromPayload p =
      some { command := .STOP,
             labels := { done := "Stopped", progress := "Stopping..." } } ∧
    (∀ i, Event.probeCall i ∉ (onInput p env).1) ∧
    (∀ eid, env.executeResult = .ok eid →
       onInput p env =
         ([.nodeStatus .yellow "Stopping...", .executeCall ⟨"stop", []⟩,
           .nodeStatus .grey "Unknown", .sendMsg], .resolved)) := by
  have hg : generateInstructionsFromPayload p =
      some { command := .STOP,
             labels := { done := "Stopped", progress := "Stopping..." } } := by
    simp [generateInstructionsFromPayload, hp]
  obtain ⟨cmd, hcmd, hrest⟩ := onInput_cases p env _ hg
  rcases hcmd with ⟨-, rfl⟩ | ⟨-, st, hst, -⟩
  · refine ⟨hg, ?_, ?_⟩
    · intro i
      rcases hrest with ⟨-, heq⟩ | ⟨eid, -, ⟨-, heq⟩ | ⟨st, hst, -⟩⟩
      · rw [heq]; simp
      · rw [heq]; simp
      · exact Option.noConfusion hst
    · intro eid hex
      rcases hrest with ⟨herr, -⟩ | ⟨eid', hok, ⟨-, heq⟩ | ⟨st, hst, -⟩⟩
      · rw [hex] at herr; exact Except.noConfusion herr
      · rw [heq]; rfl
      · exact Option.noConfusion hst
  · exact Option.noConfusion hst

/-- C4: for every payload with `lowspeed: true` whose resolved command is
not `STOP`, the handler replaces the wire command name with the dedicated
low-speed command `position_low_speed` (a name distinct from every base
command name) and replaces the parameters with the single-element sequence
holding the resolved target position (`expectedState.position || 0`), while
the instruction's labels and expected state are untouched: the progress
display still uses the base resolver's progress label, and whenever the
invocation resolves, the done display still uses the base resolver's done
label. -/
theorem C4_lowspeed_override (p : ITahomaControlPayload) (env : Env)
    (instr : ITahomaControlInstructions)
    (hg : generateInstructionsFromPayload p = some instr)
    (hl : p.lowspeed = true) (hs : instr.command ≠ .STOP) :
    ∃ st, instr.expectedState = some st ∧
      instr.command.wireName ≠ "position_low_speed" ∧
      (∃ rest, (onInput p env).1 =
        .nodeStatus .yellow instr.labels.progress
          :: .executeCall { name := "position_low_speed",
                            parameters := [jsOrZero st.position] } :: rest) ∧
      ((onInput p env).2 = .resolved →
         .nodeStatus .green instr.labels.done ∈ (onInput p env).1) := by
  have hw : instr.command.wireName ≠ "stop" := fun h => hs ((wireName_eq_stop_iff _).mp h)
  have hguard : (p.lowspeed && !(instr.command.wireName == "stop")) = true := by
    simp [hl, hw]
  obtain ⟨cmd, hcmd, hrest⟩ := onInput_cases p env instr hg
  rcases hcmd with ⟨hfalse, -⟩ | ⟨-, st, hst, rfl⟩
  · rw [hguard] at hfalse; exact Bool.noConfusion hfalse
  refine ⟨st, hst, wireName_ne_low _, ?_, ?_⟩
  · rcases hrest with ⟨-, heq⟩ | ⟨eid, -, ⟨hnone, -⟩ | ⟨st', -, ⟨-, heq⟩ | ⟨-, heq⟩⟩⟩
    · exact ⟨[], by rw [heq]⟩
    · rw [hst] at hnone; exact Option.noConfusion hnone
    · exact ⟨_, by rw [heq]; rfl⟩
    · exact ⟨_, by rw [heq]; rfl⟩
  · intro hres
    rcases hrest with ⟨-, heq⟩ | ⟨eid, -, ⟨hnone, -⟩ | ⟨st', -, ⟨-, heq⟩ | ⟨hne, heq⟩⟩⟩
    · rw [heq] at hres; exact Outcome.noConfusion hres
    · rw [hst] at hnone; exact Option.noConfusion hnone
    · rw [heq]; simp
    · rw [heq] at hres; exact absurd hres hne

theorem C3_witness :
    onInput ⟨"stop", "", "", true, ""⟩ ⟨.ok "e1", []⟩ =
      ([.nodeStatus .yellow "Stopping...", .executeCall ⟨"stop", []⟩,
        .nodeStatus .grey "Unknown", .sendMsg], .resolved) :=
  (C3_stop_fire_and_forget ⟨"stop", "", "", true, ""⟩ ⟨.ok "e1", []⟩ rfl).2.2 "e1" rfl

theorem C4_witness :
    ∃ rest, (onInput ⟨"customPosition", "", "55", true, ""⟩ ⟨.ok "e1", [.ok none]⟩).1 =
      .nodeStatus .yellow "Setting to 55"
        :: .executeCall ⟨"position_low_speed", [JSNum.int 55]⟩ :: rest := by
  obtain ⟨st, hst, -, ⟨rest, htr⟩, -⟩ :=
    C4_lowspeed_override ⟨"customPosition", "", "55", true, ""⟩ ⟨.ok "e1", [.ok none]⟩
      { command := .SET_CLOSURE, parameters := some [parseIntJS "55"],
        expectedState := some { «open» := some true, position := some (parseIntJS "55") },
        labels := { done := "Set to 55", progress := "Setting to 55" } }
      (by decide) rfl (by decide)
  cases hst
  refine ⟨rest, ?_⟩
  rw [htr]
  rfl

/-- C9: (1) the handler never crashes: for every non-`null` resolver output
whose command is not `STOP`, `expectedState` is defined, so the low-speed
override's read of `expectedState.position` is always well-defined; and
(2) when the expected position is absent, `0`, or `NaN` (malformed position
text), the low-speed wire parameters are `[0]` — the resolver's `NaN` never
reaches the wire command under the low-speed override. -/
theorem C9_lowspeed_position_safety (p : ITahomaControlPayload) (env : Env)
    (instr : ITahomaControlInstructions) (st : ExpectedState) :
    (onInput p env).2 ≠ .crashed ∧
    (generateInstructionsFromPayload p = some instr →
       instr.command ≠ .STOP → instr.expectedState.isSome = true) ∧
    (generateInstructionsFromPayload p = some instr → p.lowspeed = true →
       instr.command ≠ .STOP → instr.expectedState = some st →
       (st.position = none ∨ st.position = some (.int 0) ∨ st.position = some .nan) →
       ∃ rest, (onInput p env).1 =
         .nodeStatus .yellow instr.labels.progress
           :: .executeCall ⟨"position_low_speed", [JSNum.int 0]⟩ :: rest) := by
  refine ⟨?_, ?_, ?_⟩
  · rcases hg' : generateInstructionsFromPayload p with _ | i
    · simp [onInput, hg']
    · obtain ⟨cmd, -, hrest⟩ := onInput_cases p env i hg'
      rcases hrest with ⟨-, heq⟩ | ⟨eid, -, ⟨-, heq⟩ | ⟨st', -, ⟨-, heq⟩ | ⟨-, heq⟩⟩⟩
      · rw [heq]; simp
      · rw [heq]; simp
      · rw [heq]; simp
      · rw [heq]
        rcases cwc_outcome_cases eid env.probeResults with h | h | h <;> simp [h]
  · intro hg hs
    obtain ⟨st', h⟩ := generate_expectedState_isSome hg hs
    rw [h]; rfl
  · intro hg hl hs hstc hpos
    have hjz : jsOrZero st.position = JSNum.int 0 := by
      rcases hpos with h | h | h <;> simp [h, jsOrZero, JSNum.isFalsy]
    have hw : instr.command.wireName ≠ "stop" := fun h => hs ((wireName_eq_stop_iff _).mp h)
    have hguard : (p.lowspeed && !(instr.command.wireName == "stop")) = true := by
      simp [hl, hw]
    obtain ⟨cmd, hcmd, hrest⟩ := onInput_cases p env instr hg
    rcases hcmd with ⟨hfalse, -⟩ | ⟨-, st'', hst'', rfl⟩
    · rw [hguard] at hfalse; exact Bool.noConfusion hfalse
    rw [hstc] at hst''
    injection hst'' with hst''
    subst hst''
    rw [hjz] at hrest
    rcases hrest with ⟨-, heq⟩ | ⟨eid, -, ⟨hnone, -⟩ | ⟨st', -, ⟨-, heq⟩ | ⟨-, heq⟩⟩⟩
    · exact ⟨[], by rw [heq]⟩
    · rw [hstc] at hnone; exact Option.noConfusion hnone
    · exact ⟨_, by rw [heq]; rfl⟩
    · exact ⟨_, by rw [heq]; rfl⟩

theorem C9_witness :
    ∃ rest, (onInput ⟨"customPosition", "", "abc", true, ""⟩ ⟨.ok "e1", []⟩).1 =
      .nodeStatus .yellow "Setting to abc"
        :: .executeCall ⟨"position_low_speed", [JSNum.int 0]⟩ :: rest :=
  (C9_lowspeed_position_safety ⟨"customPosition", "", "abc", true, ""⟩ ⟨.ok "e1", []⟩
      { command := .SET_CLOSURE, parameters := some [parseIntJS "abc"],
        expectedState := some { «open» := some true, position := some (parseIntJS "abc") },
        labels := { done := "Set to abc", progress := "Setting to abc" } }
      { «open» := some true, position := some (parseIntJS "abc") }).2.2
    (by decide) rfl (by decide) rfl (Or.inr (Or.inr (by decide)))

/-- C6: a failing gateway call propagates un-recovered: (1) if `execute`
fails, the invocation stops right after the progress display and the
command attempt — no retry, no further status, no forward; (2) if a status
probe fails after any number of non-absence probes, the polling loop makes
exactly those probes plus the failing one and aborts — no retry of the
failed probe, the remaining probe results are never consumed; (3) an
aborted invocation never forwards the message and never displays a
terminal (done/unknown) status — no status rollback either; (4) the
tracking future need not resolve: a probe history exists on which the
tracker does not resolve. -/
theorem C6_transport_failure (p : ITahomaControlPayload) (env : Env)
    (eid : String) (instr : ITahomaControlInstructions) :
    (generateInstructionsFromPayload p = some instr →
       env.executeResult = .error () →
       ∃ c, onInput p env =
         ([.nodeStatus .yellow instr.labels.progress, .executeCall c], .aborted)) ∧
    (∀ pre rest : List (Except Unit (Option Status)),
       (∀ x ∈ pre, ∃ t, x = Except.ok (some t)) →
       continueWhenCompleted eid (pre ++ .error () :: rest) =
         { events := List.replicate (pre.length + 1) (Event.probeCall eid),
           outcome := .aborted,
           elapsedMs := (pre.length + 1) * STATE_VALIDATOR_POLLING_DELAY,
           probes := pre.length + 1 }) ∧
    ((onInput p env).2 = .aborted →
       Event.sendMsg ∉ (onInput p env).1 ∧
       ∀ e ∈ (onInput p env).1, e.isTerminalStatus = false) ∧
    (∃ ps : List (Except Unit (Option Status)),
       (continueWhenCompleted eid ps).outcome ≠ .resolved) := by
  refine ⟨?_, ?_, ?_, ?_⟩
  · intro hg hex
    obtain ⟨cmd, -, hrest⟩ := onInput_cases p env instr hg
    rcases hrest with ⟨-, heq⟩ | ⟨eid', hok, -⟩
    · exact ⟨cmd, heq⟩
    · rw [hex] at hok; exact Except.noConfusion hok
  · intro pre rest h
    rw [cwc_append_nonabsent eid pre (.error () :: rest) h, cwc_cons_error]
    simp only [TrackResult.mk.injEq]
    refine ⟨?_, trivial, ?_, ?_⟩
    · rw [List.replicate_succ']
    · ring
    · omega
  · intro hab
    rcases hg' : generateInstructionsFromPayload p with _ | i
    · rw [show onInput p env = ([], .noop) from by simp [onInput, hg']]
      exact ⟨by simp, by simp⟩
    · obtain ⟨cmd, -, hrest⟩ := onInput_cases p env i hg'
      rcases hrest with ⟨-, heq⟩ | ⟨eid', -, ⟨-, heq⟩ | ⟨st', -, ⟨-, heq⟩ | ⟨-, heq⟩⟩⟩
      · rw [heq]
        refine ⟨by simp, ?_⟩
        intro e he
        rcases List.mem_cons.mp he with rfl | he
        · rfl
        · rcases List.mem_cons.mp he with rfl | he
          · rfl
          · simp at he
      · rw [heq] at hab; exact Outcome.noConfusion hab
      · rw [heq] at hab; exact Outcome.noConfusion hab
      · rw [heq]
        have hpr := cwc_events_are_probes eid' env.probeResults
        constructor
        · intro hmem
          rcases List.mem_cons.mp hmem with h1 | hmem
          · exact Event.noConfusion h1
          · rcases List.mem_cons.mp hmem with h1 | hmem
            · exact Event.noConfusion h1
            · exact Event.noConfusion (hpr _ hmem)
        · intro e he
          rcases List.mem_cons.mp he with rfl | he
          · rfl
          · rcases List.mem_cons.mp he with rfl | he
            · rfl
            · rw [hpr e he]; rfl
  · exact ⟨[.error ()], by rw [cwc_cons_error]; exact fun h => Outcome.noConfusion h⟩

theorem C6_witness :
    (∃ c, onInput ⟨"open", "", "", false, ""⟩ ⟨.error (), []⟩ =
       ([.nodeStatus .yellow "Opening...", .executeCall c], .aborted)) ∧
    continueWhenCompleted "e1" ([.ok (some ⟨"s"⟩)] ++ .error () :: [.ok none]) =
      { events := List.replicate 2 (Event.probeCall "e1"),
        outcome := .aborted,
        elapsedMs := 2 * STATE_VALIDATOR_POLLING_DELAY, probes := 2 } := by
  have h := C6_transport_failure ⟨"open", "", "", false, ""⟩ ⟨.error (), []⟩ "e1"
    { command := .OPEN,
      expectedState := some { «open» := some true, position := some (.int 0) },
      labels := { done := "Open", progress := "Opening..." } }
  refine ⟨h.1 (by decide) rfl, ?_⟩
  have h2 := h.2.1 [.ok (some ⟨"s"⟩)] [.ok none]
    (by intro x hx
        rcases List.mem_cons.mp hx with rfl | hx
        · exact ⟨⟨"s"⟩, rfl⟩
        · simp at hx)
  simpa using h2

/-- C5: for a single invocation with a recognized action, the yellow
progress status always comes before any terminal (green done / grey
unknown) status in the event trace, the message is forwarded downstream
exactly as many times as a terminal status is displayed (hence exactly once
on every branch that reaches its terminal status, and at most once overall),
and every forward is the last event, coming strictly after the terminal
status. -/
theorem C5_status_ordering (p : ITahomaControlPayload) (env : Env)
    (hrec : generateInstructionsFromPayload p ≠ none) :
    (∀ l r (e : Event), (onInput p env).1 = l ++ e :: r → e.isTerminalStatus = true →
       ∃ q l', l = q :: l' ∧ q.isProgressStatus = true) ∧
    ((onInput p env).1.count Event.sendMsg =
       (onInput p env).1.countP (·.isTerminalStatus)) ∧
    (onInput p env).1.count Event.sendMsg ≤ 1 ∧
    (∀ l r, (onInput p env).1 = l ++ Event.sendMsg :: r →
       r = [] ∧ ∃ (l' : List Event) (e : Event), l = l' ++ [e] ∧ e.isTerminalStatus = true) := by
  obtain ⟨i, hg⟩ := Option.ne_none_iff_exists'.mp hrec
  obtain ⟨cmd, -, hrest⟩ := onInput_cases p env i hg
  have head_then :
      ∀ tail, (onInput p env).1 =
          Event.nodeStatus Fill.yellow i.labels.progress :: Event.executeCall cmd :: tail →
        (∀ l r (e : Event), (onInput p env).1 = l ++ e :: r → e.isTerminalStatus = true →
          ∃ q l', l = q :: l' ∧ q.isProgressStatus = true) := by
    intro tail hht l r e heq hterm
    rw [hht] at heq
    cases l with
    | nil =>
      rw [List.nil_append] at heq
      injection heq with h1 h2
      rw [← h1] at hterm
      exact absurd hterm (by simp [isTerminal_yellow])
    | cons q l' =>
      rw [List.cons_append] at heq
      injection heq with h1 h2
      exact ⟨q, l', rfl, by rw [← h1]; rfl⟩
  rcases hrest with ⟨-, heq⟩ | ⟨eid, -, ⟨-, heq⟩ | ⟨st, -, ⟨-, heq⟩ | ⟨-, heq⟩⟩⟩
  · -- execute failed: trace = [progress, executeCall]
    have htr : (onInput p env).1 =
        [Event.nodeStatus Fill.yellow i.labels.progress, Event.executeCall cmd] := by
      rw [heq]
    refine ⟨head_then _ htr, ?_, ?_, ?_⟩
    · rw [htr]
      simp [List.count_cons, List.countP_cons, isTerminal_yellow, isTerminal_exec]
    · rw [htr]; simp
    · intro l r hx
      rw [htr] at hx
      have hm : Event.sendMsg ∈
          [Event.nodeStatus Fill.yellow i.labels.progress, Event.executeCall cmd] := by
        rw [hx]; exact List.mem_append_right l (List.mem_cons_self ..)
      simp at hm
  · -- no expectedState: trace = [progress, executeCall, unknown, send]
    have htr : (onInput p env).1 =
        [Event.nodeStatus Fill.yellow i.labels.progress, Event.executeCall cmd,
         Event.nodeStatus Fill.grey "Unknown", Event.sendMsg] := by
      rw [heq]
    refine ⟨head_then _ htr, ?_, ?_, ?_⟩
    · rw [htr]
      simp [List.count_cons, List.countP_cons, isTerminal_yellow, isTerminal_exec,
        isTerminal_grey, isTerminal_send]
    · rw [htr]; simp [List.count_cons]
    · intro l r hx
      rw [htr] at hx
      obtain ⟨hl, hr⟩ :=
        append_cons_eq_append_singleton Event.sendMsg
          [Event.nodeStatus Fill.yellow i.labels.progress, Event.executeCall cmd,
           Event.nodeStatus Fill.grey "Unknown"] l r hx.symm (by simp)
      refine ⟨hr, [Event.nodeStatus Fill.yellow i.labels.progress, Event.executeCall cmd],
        Event.nodeStatus Fill.grey "Unknown", ?_, isTerminal_grey _⟩
      rw [hl]; rfl
  · -- polling resolved: trace = [progress, exec] ++ probes ++ [done, send]
    have hpr := cwc_events_are_probes eid env.probeResults
    set te := (continueWhenCompleted eid env.probeResults).events with hte
    have hsend_te : te.count Event.sendMsg = 0 :=
      List.count_eq_zero.mpr (fun hm => Event.noConfusion (hpr _ hm))
    have hterm_te : te.countP (·.isTerminalStatus) = 0 :=
      List.countP_eq_zero.mpr (fun e he => by rw [hpr e he, isTerminal_probe]; simp)
    have htr : (onInput p env).1 =
        Event.nodeStatus Fill.yellow i.labels.progress :: Event.executeCall cmd ::
          (te ++ [Event.nodeStatus Fill.green i.labels.done, Event.sendMsg]) := by
      rw [heq]
      rfl
    refine ⟨head_then _ htr, ?_, ?_, ?_⟩
    · rw [htr]
      simp [List.count_cons, List.count_append, List.countP_cons, List.countP_append,
        hsend_te, hterm_te, isTerminal_yellow, isTerminal_exec, isTerminal_green,
        isTerminal_send]
    · rw [htr]
      simp [List.count_cons, List.count_append, hsend_te]
    · intro l r hx
      rw [htr] at hx
      have hx' : l ++ Event.sendMsg :: r =
          (Event.nodeStatus Fill.yellow i.labels.progress :: Event.executeCall cmd ::
            (te ++ [Event.nodeStatus Fill.green i.labels.done])) ++ [Event.sendMsg] := by
        rw [← hx]; simp
      have hnotin : Event.sendMsg ∉
          (Event.nodeStatus Fill.yellow i.labels.progress :: Event.executeCall cmd ::
            (te ++ [Event.nodeStatus Fill.green i.labels.done])) := by
        intro hm
        rcases List.mem_cons.mp hm with h1 | hm
        · exact Event.noConfusion h1
        rcases List.mem_cons.mp hm with h1 | hm
        · exact Event.noConfusion h1
        rcases List.mem_append.mp hm with hm | hm
        · exact Event.noConfusion (hpr _ hm)
        · rcases List.mem_cons.mp hm with h1 | hm
          · exact Event.noConfusion h1
          · simp at hm
      obtain ⟨hl, hr⟩ := append_cons_eq_append_singleton Event.sendMsg _ l r hx' hnotin
      refine ⟨hr, Event.nodeStatus Fill.yellow i.labels.progress :: Event.executeCall cmd :: te,
        Event.nodeStatus Fill.green i.labels.done, ?_, isTerminal_green _⟩
      rw [hl]; simp
  · -- polling aborted or still pending: trace = [progress, exec] ++ probes
    have hpr := cwc_events_are_probes eid env.probeResults
    set te := (continueWhenCompleted eid env.probeResults).events with hte
    have hsend_te : te.count Event.sendMsg = 0 :=
      List.count_eq_zero.mpr (fun hm => Event.noConfusion (hpr _ hm))
    have hterm_te : te.countP (·.isTerminalStatus) = 0 :=
      List.countP_eq_zero.mpr (fun e he => by rw [hpr e he, isTerminal_probe]; simp)
    have htr : (onInput p env).1 =
        Event.nodeStatus Fill.yellow i.labels.progress :: Event.executeCall cmd :: te := by
      rw [heq]
      rfl
    refine ⟨head_then _ htr, ?_, ?_, ?_⟩
    · rw [htr]
      simp [List.count_cons, List.countP_cons, hsend_te, hterm_te, isTerminal_yellow,
        isTerminal_exec]
    · rw [htr]
      simp [List.count_cons, hsend_te]
    · intro l r hx
      rw [htr] at hx
      have hm : Event.sendMsg ∈
          Event.nodeStatus Fill.yellow i.labels.progress :: Event.executeCall cmd :: te := by
        rw [hx]; exact List.mem_append_right l (List.mem_cons_self ..)
      rcases List.mem_cons.mp hm with h1 | hm
      · exact Event.noConfusion h1
      rcases List.mem_cons.mp hm with h1 | hm
      · exact Event.noConfusion h1
      · exact Event.noConfusion (hpr _ hm)

theorem C5_witness :
    (∀ l r (e : Event),
       (onInput ⟨"close", "", "", false, ""⟩ ⟨.ok "e1", [.ok none]⟩).1 = l ++ e :: r →
       e.isTerminalStatus = true →
       ∃ q l', l = q :: l' ∧ q.isProgressStatus = true) ∧
    ((onInput ⟨"close", "", "", false, ""⟩ ⟨.ok "e1", [.ok none]⟩).1.count Event.sendMsg =
       (onInput ⟨"close", "", "", false, ""⟩ ⟨.ok "e1", [.ok none]⟩).1.countP
         (·.isTerminalStatus)) ∧
    (onInput ⟨"close", "", "", false, ""⟩ ⟨.ok "e1", [.ok none]⟩).1.count Event.sendMsg ≤ 1 ∧
    (∀ l r, (onInput ⟨"close", "", "", false, ""⟩ ⟨.ok "e1", [.ok none]⟩).1 =
        l ++ Event.sendMsg :: r →
       r = [] ∧ ∃ (l' : List Event) (e : Event), l = l' ++ [e] ∧ e.isTerminalStatus = true) :=
  C5_status_ordering ⟨"close", "", "", false, ""⟩ ⟨.ok "e1", [.ok none]⟩ (by decide)
